import Mathlib

/-!
Verification development for the MyMoneyMan ledger/accounting engine.

This file shallowly embeds the core data model and operations of the
engine — account types and groups, the subtransaction ledger, the
per-account balance query, the transaction-type classifier, the quote
resolution engine, the hierarchical balance aggregation, the account
store, and the draft-edit table model — and proves properties about
them.  Decimal values are modelled as exact rationals; SQL result sets
are modelled as Lean lists; ORM object identity is modelled by integer
ids.
-/

namespace MyMoneyMan

/-- The eleven account types of `AccountType` (models/sql/account.py). -/
inductive AccountType where
  | Asset
  | Cash
  | Bank
  | Receivable
  | Security
  | Liability
  | CreditCard
  | Payable
  | Income
  | Expense
  | Equity
deriving DecidableEq, Repr, Fintype

/-- The five account groups of `AccountGroup` (models/sql/account.py). -/
inductive AccountGroup where
  | Asset
  | Liability
  | Income
  | Expense
  | Equity
deriving DecidableEq, Repr, Fintype

/-- `AccountGroup.fromAccountType` (models/sql/account.py): the fixed
mapping from the eleven account types onto the five groups. -/
def AccountGroup.fromAccountType (t : AccountType) : AccountGroup :=
  if t = .Asset ∨ t = .Cash ∨ t = .Bank ∨ t = .Receivable ∨ t = .Security then
    .Asset
  else if t = .Liability ∨ t = .CreditCard ∨ t = .Payable then
    .Liability
  else if t = .Income then
    .Income
  else if t = .Expense then
    .Expense
  else
    .Equity

/-- `AccountType.group` (models/sql/account.py). -/
def AccountType.group (t : AccountType) : AccountGroup :=
  AccountGroup.fromAccountType t

/-- The transaction types of `TransactionType` (models/sql/transaction.py). -/
inductive TransactionType where
  | Opening
  | Income
  | Expense
  | CashExpense
  | OnDebitExpense
  | OnCreditExpense
  | Deposit
  | Withdrawal
  | CashTransfer
  | BankTransfer
  | AssetTransfer
  | Investment
  | Divestment
  | ForeignExchange
  | CreditCardPayment
  | CreditUsage
  | Repayment
  | LiabilityTransfer
  | Split
  | Undefined
deriving DecidableEq, Repr, Fintype

/-- `TransactionType.fromAccountTypes` (models/sql/transaction.py).

The branch for origin `Liability` with target in (Cash, Bank, Security,
Asset) executes `return TransactionType.CreditUsag` in the source; no
enum member of that name exists, so the Python attribute access raises
`AttributeError` at runtime.  That outcome is modelled as `none`; every
other pair of account types reaches a `return` of an actual member and
is modelled as `some`. -/
def TransactionType.fromAccountTypes (originType targetType : AccountType) :
    Option TransactionType :=
  if originType = .Equity then
    some .Opening
  else if originType = .Income then
    some .Income
  else if originType = .Asset then
    if targetType = .Cash ∨ targetType = .Bank ∨ targetType = .Asset then
      some .AssetTransfer
    else if targetType = .Security then
      some .Investment
    else if targetType = .Expense then
      some .Expense
    else if targetType = .Liability ∨ targetType = .CreditCard then
      some .Repayment
    else
      some .Undefined
  else if originType = .Cash then
    if targetType = .Cash then some .CashTransfer
    else if targetType = .Bank then some .Deposit
    else if targetType = .Security then some .Investment
    else if targetType = .Asset then some .AssetTransfer
    else if targetType = .Expense then some .CashExpense
    else if targetType = .Liability ∨ targetType = .CreditCard then
      some .Repayment
    else
      some .Undefined
  else if originType = .Bank then
    if targetType = .Bank then some .BankTransfer
    else if targetType = .Cash then some .Withdrawal
    else if targetType = .Security then some .Investment
    else if targetType = .Asset then some .AssetTransfer
    else if targetType = .Expense then some .OnDebitExpense
    else if targetType = .Liability ∨ targetType = .CreditCard then
      some .Repayment
    else
      some .Undefined
  else if originType = .Security then
    if targetType = .Cash ∨ targetType = .Bank ∨ targetType = .Asset then
      some .Divestment
    else if targetType = .Security then
      some .AssetTransfer
    else
      some .Undefined
  else if originType = .Liability ∨ originType = .CreditCard then
    if targetType = .Cash ∨ targetType = .Bank ∨ targetType = .Security ∨
        targetType = .Asset then
      if originType = .Liability then
        none
      else
        some .CreditCardPayment
    else if targetType = .Liability ∨ targetType = .CreditCard then
      some .LiabilityTransfer
    else if targetType = .Expense then
      some .OnCreditExpense
    else
      some .Undefined
  else
    some .Undefined

/-- A row of the SQL table `subtransaction` (models/sql/subtransaction.py),
joined with its transaction's `date`.  `quantity` is denominated in the
target account's asset; `quotePrice` is the exchange rate of the target
asset in terms of the origin asset. -/
structure SubRec where
  id : Nat
  date : Nat
  originId : Nat
  targetId : Nat
  quantity : ℚ
  quotePrice : ℚ
deriving DecidableEq, Repr

/-- The result rows of the `UNION ALL` statement in `queryAccountBalance`
(models/balance.py) and `Account.balance` (models/sql/account.py):
`(quantity, quote_price, -1)` for each subtransaction whose origin is the
account, and `(quantity, 1, 1)` for each one whose target is the account. -/
def balanceRows (subs : List SubRec) (accountId : Nat) : List (ℚ × ℚ × ℤ) :=
  (subs.filter (fun s => s.originId == accountId)).map
      (fun s => (s.quantity, s.quotePrice, (-1 : ℤ)))
    ++ (subs.filter (fun s => s.targetId == accountId)).map
      (fun s => (s.quantity, (1 : ℚ), (1 : ℤ)))

/-- `queryAccountBalance` (models/balance.py), identical to the loop of
`Account.balance` (models/sql/account.py): fold the result rows with
`balance += (quantity * side) * quote_price`. -/
def queryAccountBalance (subs : List SubRec) (accountId : Nat) : ℚ :=
  (balanceRows subs accountId).foldl
    (fun balance r => balance + (r.1 * (r.2.2 : ℚ)) * r.2.1) 0

/-- Modelled from the spec's words: the per-account balance as the sum of
`-quantity * quote_price` over subtransactions with the account as
origin, plus the sum of `quantity` over subtransactions with the account
as target. -/
def specAccountBalance (subs : List SubRec) (accountId : Nat) : ℚ :=
  ((subs.filter (fun s => s.originId == accountId)).map
      (fun s => -(s.quantity * s.quotePrice))).sum
    + ((subs.filter (fun s => s.targetId == accountId)).map
      (fun s => s.quantity)).sum

/-- `Subtransaction.swap` (models/sql/subtransaction.py): exchange the
origin and target accounts; then, unless the quote price is 1, rescale
the quantity by the quote price and invert the quote price. -/
def SubRec.swap (s : SubRec) : SubRec :=
  if s.originId = s.targetId then
    s
  else
    let s := { s with originId := s.targetId, targetId := s.originId }
    if s.quotePrice ≠ 1 then
      { s with quantity := s.quantity * s.quotePrice,
               quotePrice := 1 / s.quotePrice }
    else
      s

/-- The per-subtransaction movement of an account, as accumulated by the
loop of `Transaction.relativeQuantity` (models/sql/transaction.py):
`-quantity * quote_price` on the origin side and `+quantity` on the
target side. -/
def movement (s : SubRec) (accountId : Nat) : ℚ :=
  (if accountId = s.originId then -(s.quantity * s.quotePrice) else 0)
    + (if accountId = s.targetId then s.quantity else 0)

/-- Folding additions starting from `a` equals `a` plus the sum of the map. -/
theorem foldl_add_map_sum {α : Type} (f : α → ℚ) :
    ∀ (l : List α) (a : ℚ), l.foldl (fun b x => b + f x) a = a + (l.map f).sum := by
  intro l
  induction l with
  | nil => intro a; simp
  | cons x xs ih =>
    intro a
    simp only [List.foldl_cons, List.map_cons, List.sum_cons, ih (a + f x)]
    ring

/-- A `Currency` object (models/sql/currency.py), restricted to the
attributes the quote engine reads. -/
structure CurrencyObj where
  id : Nat
  precision : Nat
deriving DecidableEq, Repr

/-- An `Asset` object (models/sql/asset.py): either a `Currency`, or a
`Security` (models/sql/security.py) carrying its denomination currency
through the `currency` relationship. -/
inductive AssetObj where
  | currency (c : CurrencyObj)
  | security (id : Nat) (precision : Nat) (currency : CurrencyObj)
deriving DecidableEq, Repr

/-- The asset id of an asset object, the primary key of table `asset`. -/
def AssetObj.id : AssetObj → Nat
  | .currency c => c.id
  | .security i _ _ => i

/-- Whether the object is an instance of the `Security` subclass. -/
def AssetObj.isSec : AssetObj → Bool
  | .currency _ => false
  | .security _ _ _ => true

/-- A row of the SQL table `account` (models/sql/account.py), restricted
to the columns the quote joins read. -/
structure AccountRec where
  id : Nat
  assetId : Nat
deriving DecidableEq, Repr

/-- The persisted ledger visible to a database session: the `account`
table and the `subtransaction` table (each subtransaction row joined
with its transaction's date). -/
structure Ledger where
  accounts : List AccountRec
  subs : List SubRec
deriving DecidableEq, Repr

/-- The asset id of an account id, as resolved by the SQL joins of
`Asset.quote` (models/sql/asset.py). -/
def assetIdOfAccount (l : Ledger) (accountId : Nat) : Option Nat :=
  (l.accounts.find? (fun a => a.id == accountId)).map (fun a => a.assetId)

/-- Whether a subtransaction matches the `WHERE` clause of the quote
lookup in `Asset.quote`: its target account's asset is `selfId` and its
origin account's asset is `otherId`. -/
def quoteMatches (l : Ledger) (selfId otherId : Nat) (s : SubRec) : Bool :=
  assetIdOfAccount l s.targetId == some selfId
    && assetIdOfAccount l s.originId == some otherId

/-- The quote lookup of `Asset.quote` (models/sql/asset.py): the
`quote_price` of the matching subtransaction with the latest transaction
date (`ORDER BY t.date DESC LIMIT 1`). -/
def latestQuote (l : Ledger) (selfId otherId : Nat) : Option ℚ :=
  ((l.subs.filter (quoteMatches l selfId otherId)).foldl
    (fun best s =>
      match best with
      | none => some s
      | some b => if b.date < s.date then some s else some b)
    none).map (fun s => s.quotePrice)

/-- Round-half-even of a rational to an integer, the rounding mode of
Python's `round` on `decimal.Decimal` values. -/
def roundHalfEvenInt (x : ℚ) : ℤ :=
  let f := ⌊x⌋
  let r := x - (f : ℚ)
  if r < 1 / 2 then f
  else if 1 / 2 < r then f + 1
  else if f % 2 = 0 then f else f + 1

/-- Python's `round(x, prec)` on decimals: round-half-even at `prec`
decimal places. -/
def roundDec (prec : Nat) (x : ℚ) : ℚ :=
  (roundHalfEvenInt (x * 10 ^ prec) : ℚ) / 10 ^ prec

/-- Termination measure for the mutually recursive quote methods: the
weight of a call to `Asset.quote` given its `other` argument and the
`two_way` flag. -/
def quoteWeight (other : AssetObj) (twoWay : Bool) : Nat :=
  if twoWay then (if other.isSec then 8 else 4) else 1

mutual

/-- `Asset.quote` (models/sql/asset.py), for an asset attached to a
session (a detached asset returns `None` before reaching this logic).
If `self is other`, return 1; otherwise look up the latest recorded
quote of `self` denominated in `other`; if none is found and `two_way`
is true, resolve `other.quote(self, two_way=False)` — a virtual call
dispatching on the class of `other` — and return its reciprocal. -/
def assetQuote (l : Ledger) (self other : AssetObj) (twoWay : Bool) : Option ℚ :=
  if self.id = other.id then
    some 1
  else
    match latestQuote l self.id other.id with
    | some p => some p
    | none =>
      if twoWay then
        match methodQuote l other self false with
        | some p => some (1 / p)
        | none => none
      else
        none
termination_by quoteWeight other twoWay
decreasing_by
  all_goals
    rcases other with c | ⟨si, sp, sc⟩ <;> simp_all [quoteWeight, AssetObj.isSec] <;> omega

/-- Python dynamic dispatch of `.quote(...)` on the runtime class of the
receiver: `Security` overrides `Asset.quote`, `Currency` inherits it. -/
def methodQuote (l : Ledger) (self other : AssetObj) (twoWay : Bool) : Option ℚ :=
  match self with
  | .currency _ => assetQuote l self other twoWay
  | .security i p c => securityQuote l i p c other twoWay
termination_by quoteWeight other twoWay + (if self.isSec then 6 else 1)
decreasing_by
  all_goals (simp [AssetObj.isSec] <;> omega)

/-- `Security.quote` (models/sql/security.py), with the security's own
columns `(id, precision)` and its `currency` relationship bound.  First
delegate to `Asset.quote`; on failure, if `other` is a `Currency`,
multiply the security's quote in its own currency (looked up two-way) by
`self.currency.quote(other, two_way=two_way)` and round the product to
`other.precision`; if either factor is unavailable, return `None`. -/
def securityQuote (l : Ledger) (id precision : Nat) (cur : CurrencyObj)
    (other : AssetObj) (twoWay : Bool) : Option ℚ :=
  match assetQuote l (.security id precision cur) other twoWay with
  | some p => some p
  | none =>
    match other with
    | .security _ _ _ => none
    | .currency c =>
      match assetQuote l (.security id precision cur) (.currency cur) true with
      | none => none
      | some p =>
        match assetQuote l (.currency cur) (.currency c) twoWay with
        | none => none
        | some e => some (roundDec c.precision (p * e))
termination_by quoteWeight other twoWay + 5
decreasing_by
  all_goals first
    | omega
    | (cases twoWay <;> simp_all [quoteWeight, AssetObj.isSec] <;> omega)
    | (rcases other with c | ⟨si, sp, sc⟩ <;> cases twoWay <;>
        simp_all [quoteWeight, AssetObj.isSec] <;> omega)

end

/-- Modelled from the spec's words for claim C4, for comparison with
`securityQuote` as translated from the source: the claimed resolution of
a security quote in a target currency computes
`security.quote(security.currency) * security.currency.quote(other, two_way=True)`
— the exchange-rate factor looked up two-way unconditionally — rounded
to the target currency's precision, and fails only when either factor is
unavailable or the target is not a currency. -/
def securityQuoteClaimed (l : Ledger) (id precision : Nat) (cur : CurrencyObj)
    (other : AssetObj) (twoWay : Bool) : Option ℚ :=
  match assetQuote l (.security id precision cur) other twoWay with
  | some p => some p
  | none =>
    match other with
    | .security _ _ _ => none
    | .currency c =>
      match assetQuote l (.security id precision cur) (.currency cur) true with
      | none => none
      | some p =>
        match assetQuote l (.currency cur) (.currency c) true with
        | none => none
        | some e => some (roundDec c.precision (p * e))

/-- The account data of an `AccountTreeProxyItem` that wraps an account
(models/proxy/account_tree.py): the account's id, its type, and its
asset object. -/
structure AcctNode where
  accId : Nat
  type : AccountType
  asset : AssetObj
deriving DecidableEq, Repr

/-- A subtree of `AccountTreeProxyModel` rooted at an account item:
the item's account data together with its child items. -/
inductive ATree where
  | node (a : AcctNode) (children : List ATree)

/-- `AccountTreeProxyItem.balance` (models/proxy/account_tree.py) for an
account item: the account's raw ledger balance, negated when it is
nonzero and the account's group is Liability, Income or Equity.  The
same sign flip is applied per account by `BalanceTreeModel.select`
(models/balance.py). -/
def displayedBalance (l : Ledger) (n : AcctNode) : ℚ :=
  let b := queryAccountBalance l.subs n.accId
  if b ≠ 0 ∧ (n.type.group = .Liability ∨ n.type.group = .Income ∨
      n.type.group = .Equity) then
    -b
  else
    b

mutual

/-- `AccountTreeProxyItem.cumulativeBalance` (models/proxy/account_tree.py):
the item's own sign-adjusted balance — multiplied, when it is nonzero
and a target currency is given and a two-way quote from the item's asset
to that currency resolves, by that quote — plus the cumulative balances
of the children, computed against `currency or account.asset`. -/
def cumulativeBalance (l : Ledger) (t : ATree) (currency : Option AssetObj) : ℚ :=
  match t with
  | .node a children =>
    let balance := displayedBalance l a
    let balance :=
      match currency with
      | some cur =>
        if balance ≠ 0 then
          match methodQuote l a.asset cur true with
          | some q => balance * q
          | none => balance
        else
          balance
      | none => balance
    balance + cumulativeChildren l children (some (currency.getD a.asset))

/-- The `for child in self.children()` loop of `cumulativeBalance`. -/
def cumulativeChildren (l : Ledger) (ts : List ATree) (currency : Option AssetObj) : ℚ :=
  match ts with
  | [] => 0
  | t :: rest => cumulativeBalance l t currency + cumulativeChildren l rest currency

end

mutual

/-- All account nodes of a subtree, in preorder. -/
def nodesOf (t : ATree) : List AcctNode :=
  match t with
  | .node a children => a :: nodesOfList children

/-- All account nodes of a forest, in preorder. -/
def nodesOfList (ts : List ATree) : List AcctNode :=
  match ts with
  | [] => []
  | t :: rest => nodesOf t ++ nodesOfList rest

end

/-- The conversion factor applied by `cumulativeBalance` to a node's
balance: the two-way quote of the node's asset in the target currency
when one resolves, and 1 (the balance is kept unconverted) otherwise. -/
def quoteFactor (l : Ledger) (asset cur : AssetObj) : ℚ :=
  match methodQuote l asset cur true with
  | some q => q
  | none => 1

/-- A row of the `account` table as mapped by `Account`
(models/account.py): id, type, name, description, optional parent id,
and the asset reference (`currency_id` or `security_id`). -/
structure AccountRow where
  id : Nat
  type : AccountType
  name : String
  description : String
  parentId : Option Nat
  currencyId : Option Nat
  securityId : Option Nat
deriving DecidableEq, Repr

/-- `AccountTreeModel.hasAccount` (models/account.py): whether an
account with the given name, type and parent id exists. -/
def hasAccount (db : List AccountRow) (name : String) (type : AccountType)
    (parentId : Option Nat) : Bool :=
  db.any (fun a => a.name == name && a.type == type && a.parentId == parentId)

/-- The id the SQL autoincrement assigns to the next inserted account
row: one more than the largest id in the table. -/
def nextAccountId (db : List AccountRow) : Nat :=
  (db.map (fun a => a.id)).foldl max 0 + 1

/-- `AccountTreeModel.addAccount` (models/account.py): return `-1` and
leave the table unchanged when `hasAccount` reports a conflict;
otherwise insert a new row with a fresh id, `security_id` set for
security accounts and `currency_id` otherwise, and return the new id. -/
def addAccount (db : List AccountRow) (name : String) (type : AccountType)
    (description : String) (parentId : Option Nat) (assetId : Nat) :
    Int × List AccountRow :=
  if hasAccount db name type parentId then
    (-1, db)
  else
    let acc : AccountRow :=
      { id := nextAccountId db
        type := type
        name := name
        description := description
        parentId := parentId
        currencyId := if type = .Security then none else some assetId
        securityId := if type = .Security then some assetId else none }
    ((acc.id : Int), db ++ [acc])

/-- One step of the parent relation on the account table: account `x`
has parent `y`. -/
def parentStep (db : List AccountRow) (x y : Nat) : Prop :=
  ∃ a ∈ db, a.id = x ∧ a.parentId = some y

/-- The parent relation is acyclic: no account is its own strict
ancestor. -/
def Acyclic (db : List AccountRow) : Prop :=
  ∀ x, ¬ Relation.TransGen (parentStep db) x x

/-- Every parent id stored in the table refers to an account row of the
table. -/
def ClosedParents (db : List AccountRow) : Prop :=
  ∀ a ∈ db, ∀ p, a.parentId = some p → ∃ b ∈ db, b.id = p

/-- The Qt item data roles the transaction table model distinguishes
(models/transaction.py). -/
inductive Role where
  | display
  | edit
  | otherRole
deriving DecidableEq, Repr

/-- `TransactionTableItem.Column` (models/transaction.py). -/
inductive TColumn where
  | type
  | date
  | comment
  | transference
  | inflow
  | outflow
  | balance
deriving DecidableEq, Repr

/-- A value passed to `setData`, tagged with its Python runtime type
(`QDateTime`, `str`, `int`, `decimal.Decimal`, or anything else). -/
inductive EditValue where
  | dateTime (d : Nat)
  | str (s : String)
  | int (n : Nat)
  | dec (q : ℚ)
  | null
deriving DecidableEq, Repr

/-- `SubtransactionItem` (models/transaction.py). -/
structure SubItem where
  id : Nat
  comment : Option String
  quantity : ℚ
  originAccountId : Nat
  originAccountName : String
  originAccountType : AccountType
  targetAccountId : Nat
  targetAccountName : String
  targetAccountType : AccountType
deriving DecidableEq, Repr

/-- `SubtransactionItem.relativeQuantity` (models/transaction.py):
`-quantity` for the origin account, `+quantity` for the target account,
and a raised `ValueError` — modelled as `none` — otherwise. -/
def SubItem.relativeQuantity (s : SubItem) (refId : Nat) : Option ℚ :=
  if refId = s.originAccountId then some (-s.quantity)
  else if refId = s.targetAccountId then some s.quantity
  else none

/-- `TransactionTableItem` (models/transaction.py): a transaction row
with its nonempty list of subtransaction items, kept as a head item and
a tail so that the constructor's nonemptiness check is structural. -/
structure TTItem where
  id : Nat
  date : Nat
  balance : ℚ
  subHead : SubItem
  subTail : List SubItem
deriving DecidableEq, Repr

/-- `TransactionTableItem.isSplit`: more than one subtransaction item. -/
def TTItem.isSplit (t : TTItem) : Bool :=
  t.subTail ≠ []

/-- `TransactionTableItem.setDisplayRoleData` (models/transaction.py):
only the Transference column with a string value is editable, renaming
the endpoint opposite to the reference account. -/
def TTItem.setDisplayRoleData (t : TTItem) (refId : Nat) (col : TColumn)
    (v : EditValue) : Bool × TTItem :=
  if t.isSplit then
    (false, t)
  else
    match col, v with
    | .transference, .str s =>
      if refId = t.subHead.originAccountId then
        if t.subHead.targetAccountName ≠ s then
          (true, { t with subHead := { t.subHead with targetAccountName := s } })
        else
          (false, t)
      else
        if t.subHead.originAccountName ≠ s then
          (true, { t with subHead := { t.subHead with originAccountName := s } })
        else
          (false, t)
    | _, _ => (false, t)

/-- The endpoint flip performed by the Inflow branch of
`setEditRoleData` when a negative relative quantity turns positive. -/
def SubItem.flipForInflow (s : SubItem) (refId : Nat) : SubItem :=
  { s with
    originAccountId := s.targetAccountId
    originAccountName := s.targetAccountName
    originAccountType := s.targetAccountType
    targetAccountId := refId
    targetAccountName := s.originAccountName
    targetAccountType := s.originAccountType }

/-- The endpoint flip performed by the Outflow branch of
`setEditRoleData` when a positive relative quantity turns negative. -/
def SubItem.flipForOutflow (s : SubItem) (refId : Nat) : SubItem :=
  { s with
    targetAccountId := s.originAccountId
    targetAccountName := s.originAccountName
    targetAccountType := s.originAccountType
    originAccountId := refId
    originAccountName := s.targetAccountName
    originAccountType := s.targetAccountType }

/-- `TransactionTableItem.setEditRoleData` (models/transaction.py).
`none` models a raised exception.  Faithfully to the source, the
Outflow branch updates the quantity but then falls through to
`return False`. -/
def TTItem.setEditRoleData (t : TTItem) (refId : Nat) (col : TColumn)
    (v : EditValue) : Option (Bool × TTItem) :=
  if t.isSplit then
    some (false, t)
  else
    match col, v with
    | .date, .dateTime d =>
      if t.date = d then some (false, t) else some (true, { t with date := d })
    | .comment, .str s =>
      if t.subHead.comment = some s ∨ (s = "" ∧ t.subHead.comment = none) then
        some (false, t)
      else
        some (true, { t with subHead := { t.subHead with comment := some s } })
    | .transference, .int n =>
      if refId = t.subHead.originAccountId then
        if t.subHead.targetAccountId = n then
          some (false, t)
        else
          some (true, { t with subHead := { t.subHead with targetAccountId := n } })
      else
        if t.subHead.originAccountId = n then
          some (false, t)
        else
          some (true, { t with subHead := { t.subHead with originAccountId := n } })
    | .inflow, .dec q =>
      let value := roundDec 8 q
      match t.subHead.relativeQuantity refId with
      | none => none
      | some current =>
        let current' := if 0 ≤ current then value else current + value
        let sub' :=
          if ¬(0 ≤ current) ∧ 0 < current' then t.subHead.flipForInflow refId
          else t.subHead
        let final := roundDec 8 |current'|
        if final = sub'.quantity then
          some (false, { t with subHead := sub' })
        else
          some (true, { t with subHead := { sub' with quantity := final } })
    | .outflow, .dec q =>
      let value := roundDec 8 (-q)
      match t.subHead.relativeQuantity refId with
      | none => none
      | some current =>
        let current' := if current ≤ 0 then value else current + value
        let sub' :=
          if ¬(current ≤ 0) ∧ current' < 0 then t.subHead.flipForOutflow refId
          else t.subHead
        let final := roundDec 8 |current'|
        if final = sub'.quantity then
          some (false, { t with subHead := sub' })
        else
          some (false, { t with subHead := { sub' with quantity := final } })
    | _, _ => some (false, t)

/-- `TransactionTableItem.setData` (models/transaction.py): dispatch on
the item data role. -/
def TTItem.setData (t : TTItem) (refId : Nat) (col : TColumn) (v : EditValue)
    (role : Role) : Option (Bool × TTItem) :=
  match role with
  | .display => some (t.setDisplayRoleData refId col v)
  | .edit => t.setEditRoleData refId col v
  | .otherRole => some (false, t)

/-- The state of `TransactionTableModel` (models/transaction.py): the
selected account, the loaded transaction items, the insertable
placeholder row, and the draft (`_draft_item` / `_draft_row`).  The
source aliases `_draft_item` to `_insertable_item` when the draft is for
the insertable row; that pointer aliasing is modelled by the flag
`draftIsInsertable`, which makes edits of such a draft also visible in
`insertableItem`. -/
structure TModel where
  accountId : Option Nat
  items : List TTItem
  insertableItem : Option TTItem
  draftItem : Option TTItem
  draftRow : Int
  draftIsInsertable : Bool
deriving DecidableEq, Repr

/-- `TransactionTableModel.setData` (models/transaction.py), as a pure
state transformer returning the reported Bool together with the next
model state; `none` models a raised exception. -/
def TModel.setData (m : TModel) (row : Nat) (col : TColumn) (v : EditValue)
    (role : Role) : Option (Bool × TModel) :=
  match m.accountId with
  | none => some (false, m)
  | some accId =>
    let found := m.items.get? row
    match m.draftItem with
    | none =>
      match found.orElse (fun _ => m.insertableItem) with
      | none => none
      | some item =>
        let isIns := found.isNone
        match item.setData accId col v role with
        | none => none
        | some (changed, item') =>
          if changed then
            some (true,
              { m with
                draftItem := some item'
                draftRow := (row : Int)
                draftIsInsertable := isIns
                insertableItem := if isIns then some item' else m.insertableItem })
          else
            some (false,
              { m with
                draftItem := none
                draftRow := -1
                insertableItem := if isIns then some item' else m.insertableItem })
    | some draft =>
      if m.draftRow ≠ (row : Int) then
        some (false, m)
      else
        match draft.setData accId col v role with
        | none => none
        | some (changed, draft') =>
          some (changed,
            { m with
              draftItem := some draft'
              insertableItem :=
                if m.draftIsInsertable then some draft' else m.insertableItem })

/-- An example currency object for US dollars (asset id 10). -/
def usdC : CurrencyObj := ⟨10, 2⟩

/-- An example currency object for euros (asset id 11). -/
def eurC : CurrencyObj := ⟨11, 2⟩

/-- An example ledger for the quote engine: account 1 holds the security
asset 20, accounts 2 and 4 hold USD, account 3 holds EUR; one recorded
subtransaction quotes the security at 150 USD, and a later one quotes
EUR at 2 USD. -/
def exQuoteLedger : Ledger :=
  { accounts := [⟨1, 20⟩, ⟨2, 10⟩, ⟨3, 11⟩, ⟨4, 10⟩]
    subs := [⟨1, 1, 2, 1, 10, 150⟩, ⟨2, 2, 4, 3, 100, 2⟩] }

section Theorems

/-- Claim C1: the raw per-account balance computed by the engine's
union-all query equals the sum of `-quantity * quote_price` over
subtransactions with the account as origin plus the sum of `+quantity`
over subtransactions with the account as target; and an account with
zero subtransactions has balance exactly 0. -/
theorem queryAccountBalance_correct :
    (∀ (subs : List SubRec) (accountId : Nat),
      queryAccountBalance subs accountId = specAccountBalance subs accountId) ∧
    (∀ (subs : List SubRec) (accountId : Nat),
      (∀ s ∈ subs, s.originId ≠ accountId ∧ s.targetId ≠ accountId) →
      queryAccountBalance subs accountId = 0) := by
  have key : ∀ (subs : List SubRec) (accountId : Nat),
      queryAccountBalance subs accountId = specAccountBalance subs accountId := by
    intro subs accountId
    unfold queryAccountBalance specAccountBalance balanceRows
    rw [foldl_add_map_sum]
    have e1 : ∀ q p : ℚ, q * (((-1 : ℤ)) : ℚ) * p = -(q * p) := by
      intro q p; push_cast; ring
    have e2 : ∀ q : ℚ, q * (((1 : ℤ)) : ℚ) * 1 = q := by
      intro q; push_cast; ring
    simp only [List.map_append, List.map_map, List.sum_append, Function.comp_def,
      e1, e2, zero_add]
  refine ⟨key, fun subs accountId h => ?_⟩
  have h1 : subs.filter (fun s => s.originId == accountId) = [] := by
    rw [List.filter_eq_nil_iff]
    intro s hs
    simpa using (h s hs).1
  have h2 : subs.filter (fun s => s.targetId == accountId) = [] := by
    rw [List.filter_eq_nil_iff]
    intro s hs
    simpa using (h s hs).2
  rw [key]
  unfold specAccountBalance
  rw [h1, h2]
  simp

/-- Witness for claim C1: an account appearing in no subtransaction has
balance 0 on a concrete ledger. -/
theorem queryAccountBalance_correct_witness :
    queryAccountBalance [⟨1, 0, 2, 3, 7, 1⟩] 9 = 0 :=
  queryAccountBalance_correct.2 [⟨1, 0, 2, 3, 7, 1⟩] 9 (by decide)

/-- Claim C10: for a subtransaction with distinct endpoints and nonzero
quote price, `swap` exchanges origin and target, inverts the quote
price, rescales the quantity by the quote price, and thereby exactly
negates each endpoint's signed movement. -/
theorem swap_negates_movements (s : SubRec)
    (hne : s.originId ≠ s.targetId) (hqp : s.quotePrice ≠ 0) :
    s.swap.originId = s.targetId ∧
    s.swap.targetId = s.originId ∧
    s.swap.quotePrice = 1 / s.quotePrice ∧
    s.swap.quantity = s.quantity * s.quotePrice ∧
    movement s.swap s.originId = -(movement s s.originId) ∧
    movement s.swap s.targetId = -(movement s s.targetId) := by
  unfold SubRec.swap movement
  by_cases h1 : s.quotePrice = 1 <;>
    simp [hne, Ne.symm hne, h1] <;> field_simp

/-- Witness for claim C10 at a concrete subtransaction (origin 1,
target 2, quantity 5, quote price 3). -/
theorem swap_negates_movements_witness :
    movement (SubRec.swap ⟨0, 0, 1, 2, 5, 3⟩) 1 = -(movement ⟨0, 0, 1, 2, 5, 3⟩ 1) ∧
    movement (SubRec.swap ⟨0, 0, 1, 2, 5, 3⟩) 2 = -(movement ⟨0, 0, 1, 2, 5, 3⟩ 2) :=
  ⟨(swap_negates_movements ⟨0, 0, 1, 2, 5, 3⟩ (by decide) (by norm_num)).2.2.2.2.1,
   (swap_negates_movements ⟨0, 0, 1, 2, 5, 3⟩ (by decide) (by norm_num)).2.2.2.2.2⟩

/-- Claim C3 (code bug): the transaction-type classifier is not total —
for origin type Liability and target type Cash, Bank, Security or
Asset, the source executes `return TransactionType.CreditUsag`, an
attribute access that raises `AttributeError` (modelled as `none`)
instead of returning `CreditUsage`; every other pair of the 11 × 11
account types returns a value. -/
theorem fromAccountTypes_creditUsage_branch_raises :
    TransactionType.fromAccountTypes .Liability .Cash = none ∧
    (∀ o t : AccountType,
      TransactionType.fromAccountTypes o t = none ↔
        (o = .Liability ∧
          (t = .Cash ∨ t = .Bank ∨ t = .Security ∨ t = .Asset))) ∧
    (∀ t : AccountType,
      TransactionType.fromAccountTypes .Receivable t = some .Undefined ∧
      TransactionType.fromAccountTypes .Payable t = some .Undefined) := by
  decide

/-- Claim C7: while a draft is open on one row, a `setData` edit
targeting a different row is rejected: it returns `False` and leaves the
whole model state — every row's data, the open draft, and the
insertable row — unchanged, and performs no storage write (the rejected
branch of the source touches no session). -/
theorem setData_other_row_rejected (m : TModel) (row : Nat) (col : TColumn)
    (v : EditValue) (role : Role)
    (hdraft : m.draftItem.isSome) (hrow : m.draftRow ≠ (row : Int)) :
    m.setData row col v role = some (false, m) := by
  unfold TModel.setData
  rcases hacc : m.accountId with _ | accId
  · rfl
  · rcases hd : m.draftItem with _ | draft
    · rw [hd] at hdraft; simp at hdraft
    · simp [hrow]

/-- Witness for claim C7: a concrete model with a draft on row 0
rejects an edit on row 1 and is left unchanged. -/
theorem setData_other_row_rejected_witness :
    TModel.setData
      ⟨some 1,
       [⟨1, 0, 0, ⟨1, none, 0, 1, "", .Cash, 2, "", .Bank⟩, []⟩],
       none,
       some ⟨1, 0, 0, ⟨1, none, 0, 1, "", .Cash, 2, "", .Bank⟩, []⟩,
       0, false⟩
      1 .date (.dateTime 5) .edit
      = some (false,
        ⟨some 1,
         [⟨1, 0, 0, ⟨1, none, 0, 1, "", .Cash, 2, "", .Bank⟩, []⟩],
         none,
         some ⟨1, 0, 0, ⟨1, none, 0, 1, "", .Cash, 2, "", .Bank⟩, []⟩,
         0, false⟩) :=
  setData_other_row_rejected _ 1 .date (.dateTime 5) .edit (by decide) (by decide)

mutual

/-- Against a given target currency, a subtree's cumulative balance is
the sum, over its nodes, of the node's sign-adjusted balance times its
conversion factor. -/
theorem cumulativeBalance_some_eq (l : Ledger) (t : ATree) (cur : AssetObj) :
    cumulativeBalance l t (some cur) =
      ((nodesOf t).map
        (fun n => displayedBalance l n * quoteFactor l n.asset cur)).sum := by
  match t with
  | .node a children =>
    rw [cumulativeBalance, nodesOf]
    simp only [Option.getD_some, List.map_cons, List.sum_cons]
    rw [cumulativeChildren_some_eq l children cur]
    congr 1
    by_cases hb : displayedBalance l a = 0
    · simp [hb]
    · rcases hq : methodQuote l a.asset cur true with _ | q <;>
        simp [hb, hq, quoteFactor]

/-- List form of `cumulativeBalance_some_eq` for the children loop. -/
theorem cumulativeChildren_some_eq (l : Ledger) (ts : List ATree) (cur : AssetObj) :
    cumulativeChildren l ts (some cur) =
      ((nodesOfList ts).map
        (fun n => displayedBalance l n * quoteFactor l n.asset cur)).sum := by
  match ts with
  | [] => rw [cumulativeChildren, nodesOfList]; simp
  | t :: rest =>
    rw [cumulativeChildren, nodesOfList]
    rw [cumulativeBalance_some_eq l t cur, cumulativeChildren_some_eq l rest cur]
    simp

end

/-- Claim C2: for Liability, Income and Equity accounts the displayed
balance is the negation of the raw ledger balance, and for Asset and
Expense accounts it is the raw balance itself; and aggregating a tree
sums each node's sign-adjusted balance exactly once, scaled only by a
conversion factor, so the inversion is never re-applied. -/
theorem displayed_balance_sign_inversion :
    (∀ (l : Ledger) (n : AcctNode),
      displayedBalance l n =
        if n.type.group = .Liability ∨ n.type.group = .Income ∨
            n.type.group = .Equity then
          -(queryAccountBalance l.subs n.accId)
        else
          queryAccountBalance l.subs n.accId) ∧
    (∀ (l : Ledger) (a : AcctNode) (children : List ATree),
      cumulativeBalance l (.node a children) none =
        displayedBalance l a +
          ((nodesOfList children).map
            (fun n => displayedBalance l n * quoteFactor l n.asset a.asset)).sum) := by
  constructor
  · intro l n
    unfold displayedBalance
    by_cases hb : queryAccountBalance l.subs n.accId = 0
    · simp [hb]
    · by_cases hg : n.type.group = .Liability ∨ n.type.group = .Income ∨
          n.type.group = .Equity <;> simp [hb, hg]
  · intro l a children
    rw [cumulativeBalance]
    simp only [Option.getD_none]
    rw [cumulativeChildren_some_eq l children a.asset]

/-- Claim C6 (amended): against a target currency, every node of a
subtree contributes its sign-adjusted balance multiplied by the two-way
quote of its asset in that currency when one resolves; a node whose
quote is unresolvable contributes its balance unconverted — with factor
1, not 0. -/
theorem cumulative_descendant_contribution :
    (∀ (l : Ledger) (t : ATree) (cur : AssetObj),
      cumulativeBalance l t (some cur) =
        ((nodesOf t).map
          (fun n => displayedBalance l n * quoteFactor l n.asset cur)).sum) ∧
    (∀ (l : Ledger) (asset cur : AssetObj),
      methodQuote l asset cur true = none → quoteFactor l asset cur = 1) := by
  refine ⟨fun l t cur => cumulativeBalance_some_eq l t cur, fun l asset cur h => ?_⟩
  unfold quoteFactor
  rw [h]

/-- The example USD currency as an asset object. -/
def usdA : AssetObj := .currency usdC

/-- The example EUR currency as an asset object. -/
def eurA : AssetObj := .currency eurC

/-- An example ledger for cumulative balances: account 1 (USD) received
100 from account 3 (USD) and account 2 (EUR) received 50 from account 4
(EUR); no cross-currency subtransaction exists, so no USD/EUR quote is
resolvable in either direction. -/
def exTreeLedger : Ledger :=
  { accounts := [⟨1, 10⟩, ⟨2, 11⟩, ⟨3, 10⟩, ⟨4, 11⟩]
    subs := [⟨1, 0, 3, 1, 100, 1⟩, ⟨2, 0, 4, 2, 50, 1⟩] }

/-- The USD parent account of the example tree. -/
def exUsdNode : AcctNode := ⟨1, .Cash, usdA⟩

/-- The EUR child account of the example tree. -/
def exEurNode : AcctNode := ⟨2, .Cash, eurA⟩

/-- The example tree: the EUR account parented under the USD account. -/
def exTree : ATree := .node exUsdNode [.node exEurNode []]

/-- Counterexample to claim C6 as stated: in the example ledger no
EUR/USD quote is resolvable, yet the EUR child contributes its full
unconverted balance of 50 to the USD parent's cumulative balance — the
parent displays 150, not the 100 the claim's "contributes exactly zero"
would give. -/
theorem cumulative_unresolvable_contribution_not_zero :
    methodQuote exTreeLedger eurA usdA true = none ∧
    displayedBalance exTreeLedger exUsdNode = 100 ∧
    displayedBalance exTreeLedger exEurNode = 50 ∧
    cumulativeBalance exTreeLedger exTree none = 150 ∧
    (150 : ℚ) ≠ 100 := by
  have h1 : latestQuote exTreeLedger 11 10 = none := by decide
  have h2 : latestQuote exTreeLedger 10 11 = none := by decide
  have hid10 : (AssetObj.currency usdC).id = 10 := rfl
  have hid11 : (AssetObj.currency eurC).id = 11 := rfl
  have hrev : methodQuote exTreeLedger (.currency usdC) (.currency eurC) false = none := by
    rw [methodQuote, assetQuote]
    simp [hid10, hid11, h2]
  have hq : methodQuote exTreeLedger eurA usdA true = none := by
    show methodQuote exTreeLedger (.currency eurC) (.currency usdC) true = none
    rw [methodQuote, assetQuote]
    simp [hid10, hid11, h1, hrev]
  have hbal1 : queryAccountBalance exTreeLedger.subs 1 = 100 := by
    simp [queryAccountBalance, balanceRows, exTreeLedger]
  have hbal2 : queryAccountBalance exTreeLedger.subs 2 = 50 := by
    simp [queryAccountBalance, balanceRows, exTreeLedger]
  have hroot : displayedBalance exTreeLedger exUsdNode = 100 := by
    simp [displayedBalance, exUsdNode, hbal1, AccountType.group,
      AccountGroup.fromAccountType]
  have hchild : displayedBalance exTreeLedger exEurNode = 50 := by
    simp [displayedBalance, exEurNode, hbal2, AccountType.group,
      AccountGroup.fromAccountType]
  refine ⟨hq, hroot, hchild, ?_, by norm_num⟩
  show cumulativeBalance exTreeLedger
    (.node ⟨1, .Cash, usdA⟩ [.node ⟨2, .Cash, eurA⟩ []]) none = 150
  have hroot' : displayedBalance exTreeLedger ⟨1, .Cash, usdA⟩ = 100 := hroot
  have hchild' : displayedBalance exTreeLedger ⟨2, .Cash, eurA⟩ = 50 := hchild
  simp only [cumulativeBalance, cumulativeChildren, Option.getD_none,
    Option.getD_some]
  simp [hroot', hchild', hq]
  norm_num

/-- Witness for claim C6 (amended): the unresolvable EUR/USD conversion
factor in the example ledger is 1. -/
theorem cumulative_descendant_contribution_witness :
    quoteFactor exTreeLedger eurA usdA = 1 := by
  apply cumulative_descendant_contribution.2
  have h1 : latestQuote exTreeLedger 11 10 = none := by decide
  have h2 : latestQuote exTreeLedger 10 11 = none := by decide
  have hid10 : (AssetObj.currency usdC).id = 10 := rfl
  have hid11 : (AssetObj.currency eurC).id = 11 := rfl
  have hrev : methodQuote exTreeLedger (.currency usdC) (.currency eurC) false = none := by
    rw [methodQuote, assetQuote]
    simp [hid10, hid11, h2]
  show methodQuote exTreeLedger (.currency eurC) (.currency usdC) true = none
  rw [methodQuote, assetQuote]
  simp [hid10, hid11, h1, hrev]

/-- A quote method returns a directly resolved price unchanged:
`Security.quote` forwards any successful `Asset.quote` result. -/
theorem securityQuote_of_direct (l : Ledger) (i pr : Nat) (cu : CurrencyObj)
    (other : AssetObj) (tw : Bool) (p : ℚ)
    (h : assetQuote l (.security i pr cu) other tw = some p) :
    securityQuote l i pr cu other tw = some p := by
  cases other with
  | currency c => rw [securityQuote, h]
  | security si sp sc => rw [securityQuote, h]

/-- Dynamic dispatch preserves a directly resolved price: whatever the
runtime class of the receiver, a successful `Asset.quote` lookup is the
result of the virtual call. -/
theorem methodQuote_of_direct (l : Ledger) (self other : AssetObj) (tw : Bool)
    (p : ℚ) (h : assetQuote l self other tw = some p) :
    methodQuote l self other tw = some p := by
  cases self with
  | currency c => rw [methodQuote]; exact h
  | security i pr cu =>
    rw [methodQuote]
    exact securityQuote_of_direct l i pr cu other tw p h

/-- Claim C5: if the most recent recorded subtransaction quote with
target asset A and origin asset B has price p, and no recorded quote
exists with target asset B and origin asset A, then
`B.quote(A, two_way=True)` — whatever the runtime class of B — returns
exactly `1 / p`, with no rounding beyond the division. -/
theorem quote_two_way_inversion (l : Ledger) (B A : AssetObj) (p : ℚ)
    (hne : B.id ≠ A.id)
    (hdir : latestQuote l A.id B.id = some p)
    (hnorev : ∀ s ∈ l.subs, quoteMatches l B.id A.id s = false) :
    methodQuote l B A true = some (1 / p) := by
  have hrev : latestQuote l B.id A.id = none := by
    unfold latestQuote
    have hfil : l.subs.filter (quoteMatches l B.id A.id) = [] :=
      List.filter_eq_nil_iff.mpr (fun s hs => by simp [hnorev s hs])
    rw [hfil]
    rfl
  have hA : assetQuote l A B false = some p := by
    rw [assetQuote]
    simp [Ne.symm hne, hdir]
  have hAd : methodQuote l A B false = some p :=
    methodQuote_of_direct l A B false p hA
  have hB : assetQuote l B A true = some (1 / p) := by
    rw [assetQuote]
    simp [hne, hrev, hAd]
  exact methodQuote_of_direct l B A true (1 / p) hB

/-- Witness for claim C5 on the example ledger: EUR/USD is recorded at
2 and no USD/EUR quote is recorded, so USD.quote(EUR, two_way=True)
resolves to 1/2. -/
theorem quote_two_way_inversion_witness :
    methodQuote exQuoteLedger (.currency usdC) (.currency eurC) true =
      some (1 / 2) :=
  quote_two_way_inversion exQuoteLedger (.currency usdC) (.currency eurC) 2
    (by decide) (by decide) (by decide)

/-- Counterexample to claim C4 as stated: on the example ledger, with
the default `two_way=False`, resolving the security's quote in EUR
returns `None` even though both factors of the claimed formula — the
AAPL/USD quote (150) and the two-way USD/EUR quote (1/2) — are
available; the claimed formula (`securityQuoteClaimed`, which looks the
exchange rate up with `two_way=True`) yields 75.  The source passes the
caller's `two_way` flag to the exchange-rate lookup instead of `True`. -/
theorem securityQuote_bridge_flag_diverges :
    securityQuote exQuoteLedger 20 0 usdC (.currency eurC) false = none ∧
    securityQuoteClaimed exQuoteLedger 20 0 usdC (.currency eurC) false =
      some 75 := by
  have h20_11 : latestQuote exQuoteLedger 20 11 = none := by decide
  have h20_10 : latestQuote exQuoteLedger 20 10 = some 150 := by decide
  have h10_11 : latestQuote exQuoteLedger 10 11 = none := by decide
  have h11_10 : latestQuote exQuoteLedger 11 10 = some 2 := by decide
  have hsid : (AssetObj.security 20 0 usdC).id = 20 := rfl
  have hid10 : (AssetObj.currency usdC).id = 10 := rfl
  have hid11 : (AssetObj.currency eurC).id = 11 := rfl
  have hdr : assetQuote exQuoteLedger (.security 20 0 usdC) (.currency eurC)
      false = none := by
    rw [assetQuote]
    simp [hsid, hid11, h20_11]
  have hf1 : assetQuote exQuoteLedger (.security 20 0 usdC) (.currency usdC)
      true = some 150 := by
    rw [assetQuote]
    simp [hsid, hid10, h20_10]
  have hf2F : assetQuote exQuoteLedger (.currency usdC) (.currency eurC)
      false = none := by
    rw [assetQuote]
    simp [hid10, hid11, h10_11]
  have hrevq : methodQuote exQuoteLedger (.currency eurC) (.currency usdC)
      false = some 2 := by
    rw [methodQuote, assetQuote]
    simp [hid10, hid11, h11_10]
  have hf2T : assetQuote exQuoteLedger (.currency usdC) (.currency eurC)
      true = some (1 / 2) := by
    rw [assetQuote]
    simp [hid10, hid11, h10_11, hrevq]
  constructor
  · rw [securityQuote, hdr]
    simp [hf1, hf2F]
  · rw [securityQuoteClaimed, hdr]
    simp only [hf1, hf2T]
    have hround : roundDec 2 (150 * (1 / 2 : ℚ)) = 75 := by
      have h75 : (150 * (1 / 2 : ℚ)) * 10 ^ 2 = ((7500 : ℤ) : ℚ) := by norm_num
      unfold roundDec roundHalfEvenInt
      rw [h75, Int.floor_intCast]
      norm_num
    rw [show eurC.precision = 2 from rfl, hround]

/-- Claim C4 (amended): when the direct lookup fails, a security's
quote in a currency `c` is `quote(security, security.currency, two_way=True)`
multiplied by `quote(security.currency, c, two_way=<the caller's flag>)`
— not `two_way=True` — rounded to c's precision, and `None` when either
factor is unavailable; when the direct lookup fails and the other asset
is not a currency, the result is `None`. -/
theorem securityQuote_bridge :
    (∀ (l : Ledger) (id precision : Nat) (cur c : CurrencyObj) (twoWay : Bool),
      assetQuote l (.security id precision cur) (.currency c) twoWay = none →
      securityQuote l id precision cur (.currency c) twoWay =
        match assetQuote l (.security id precision cur) (.currency cur) true with
        | none => none
        | some p =>
          match assetQuote l (.currency cur) (.currency c) twoWay with
          | none => none
          | some e => some (roundDec c.precision (p * e))) ∧
    (∀ (l : Ledger) (id precision : Nat) (cur : CurrencyObj) (si sp : Nat)
        (sc : CurrencyObj) (twoWay : Bool),
      assetQuote l (.security id precision cur) (.security si sp sc) twoWay =
        none →
      securityQuote l id precision cur (.security si sp sc) twoWay = none) := by
  constructor
  · intro l id precision cur c twoWay hdirect
    rw [securityQuote, hdirect]
  · intro l id precision cur si sp sc twoWay hdirect
    rw [securityQuote, hdirect]

/-- Witness for claim C4 (amended) at the counterexample input: with
`two_way=False` the bridge uses the one-way USD/EUR lookup. -/
theorem securityQuote_bridge_witness :
    securityQuote exQuoteLedger 20 0 usdC (.currency eurC) false =
      match assetQuote exQuoteLedger (.security 20 0 usdC) (.currency usdC)
          true with
      | none => none
      | some p =>
        match assetQuote exQuoteLedger (.currency usdC) (.currency eurC)
            false with
        | none => none
        | some e => some (roundDec eurC.precision (p * e)) := by
  have h20_11 : latestQuote exQuoteLedger 20 11 = none := by decide
  have hsid : (AssetObj.security 20 0 usdC).id = 20 := rfl
  have hid11 : (AssetObj.currency eurC).id = 11 := rfl
  have hdr : assetQuote exQuoteLedger (.security 20 0 usdC) (.currency eurC)
      false = none := by
    rw [assetQuote]
    simp [hsid, hid11, h20_11]
  exact securityQuote_bridge.1 exQuoteLedger 20 0 usdC eurC false hdr

/-- An example account table with a parent account and a child named
"Foo" of type Cash under it. -/
def exAccountDb : List AccountRow :=
  [⟨1, .Asset, "Parent", "", none, some 10, none⟩,
   ⟨2, .Cash, "Foo", "", some 1, some 10, none⟩]

/-- Counterexample to claim C8 as stated: account 2 is named "Foo"
under parent 1, yet creating another account named "Foo" under parent 1
with a different type (Bank) is not rejected — `addAccount` inserts it
and returns a fresh id, because the conflict check requires the existing
sibling to have the same type as well. -/
theorem addAccount_same_name_sibling_inserted :
    (∃ a ∈ exAccountDb, a.name = "Foo" ∧ a.parentId = some 1) ∧
    (addAccount exAccountDb "Foo" .Bank "" (some 1) 10).1 ≠ -1 ∧
    (addAccount exAccountDb "Foo" .Bank "" (some 1) 10).2 ≠ exAccountDb := by
  decide

/-- Claim C8 (amended): account creation fails with an explicit
conflict — returning -1 and leaving the table unchanged — if and only
if an account with the same name, the same type, and the same parent id
(null for a top-level account) already exists; otherwise the new row is
appended. -/
theorem addAccount_conflict_characterization (db : List AccountRow)
    (name : String) (type : AccountType) (description : String)
    (parentId : Option Nat) (assetId : Nat) :
    ((addAccount db name type description parentId assetId).1 = -1 ↔
      ∃ a ∈ db, a.name = name ∧ a.type = type ∧ a.parentId = parentId) ∧
    ((addAccount db name type description parentId assetId).1 = -1 →
      (addAccount db name type description parentId assetId).2 = db) ∧
    (¬(∃ a ∈ db, a.name = name ∧ a.type = type ∧ a.parentId = parentId) →
      (addAccount db name type description parentId assetId).2 =
        db ++ [{ id := nextAccountId db
                 type := type
                 name := name
                 description := description
                 parentId := parentId
                 currencyId := if type = .Security then none else some assetId
                 securityId := if type = .Security then some assetId else none }]) := by
  have hchar : hasAccount db name type parentId = true ↔
      ∃ a ∈ db, a.name = name ∧ a.type = type ∧ a.parentId = parentId := by
    simp [hasAccount, List.any_eq_true, and_assoc]
  have hfresh : ((nextAccountId db : Nat) : Int) ≠ -1 := by
    omega
  by_cases h : hasAccount db name type parentId = true
  · have h1 : (addAccount db name type description parentId assetId).1 = -1 := by
      unfold addAccount
      rw [if_pos h]
    have h2 : (addAccount db name type description parentId assetId).2 = db := by
      unfold addAccount
      rw [if_pos h]
    exact ⟨⟨fun _ => hchar.mp h, fun _ => h1⟩, fun _ => h2,
      fun hnex => absurd (hchar.mp h) hnex⟩
  · have h1 : (addAccount db name type description parentId assetId).1 =
        ((nextAccountId db : Nat) : Int) := by
      unfold addAccount
      rw [if_neg h]
    have h2 : (addAccount db name type description parentId assetId).2 =
        db ++ [{ id := nextAccountId db
                 type := type
                 name := name
                 description := description
                 parentId := parentId
                 currencyId := if type = .Security then none else some assetId
                 securityId := if type = .Security then some assetId else none }] := by
      unfold addAccount
      rw [if_neg h]
    have hnex : ¬ ∃ a ∈ db, a.name = name ∧ a.type = type ∧
        a.parentId = parentId := fun hex => h (hchar.mpr hex)
    rw [h1, h2]
    exact ⟨⟨fun heq => absurd heq hfresh, fun hex => absurd hex hnex⟩,
      fun heq => absurd heq hfresh, fun _ => rfl⟩

/-- Witness for claim C8 (amended): inserting into an empty table
appends the new row. -/
theorem addAccount_conflict_characterization_witness :
    (addAccount [] "Checking" .Bank "" none 5).2 =
      [] ++ [{ id := nextAccountId []
               type := .Bank
               name := "Checking"
               description := ""
               parentId := none
               currencyId := if AccountType.Bank = .Security then none else some 5
               securityId := if AccountType.Bank = .Security then some 5 else none }] :=
  (addAccount_conflict_characterization [] "Checking" .Bank "" none 5).2.2
    (by decide)

/-- Bounds for a fold of `max`: the initial value and every element are
bounded by the fold. -/
theorem foldl_max_bounds :
    ∀ (l : List Nat) (a : Nat),
      a ≤ l.foldl max a ∧ ∀ x ∈ l, x ≤ l.foldl max a := by
  intro l
  induction l with
  | nil => intro a; simp
  | cons y ys ih =>
    intro a
    refine ⟨le_trans (le_max_left a y) (ih (max a y)).1, ?_⟩
    intro x hx
    rcases List.mem_cons.mp hx with rfl | hx
    · exact le_trans (le_max_right a x) (ih (max a x)).1
    · exact (ih (max a y)).2 x hx

/-- The autoincrement id is fresh: no stored account row carries it. -/
theorem nextAccountId_fresh (db : List AccountRow) :
    ∀ a ∈ db, a.id ≠ nextAccountId db := by
  intro a ha
  have hle : a.id ≤ (db.map (fun r => r.id)).foldl max 0 :=
    (foldl_max_bounds (db.map (fun r => r.id)) 0).2 a.id
      (List.mem_map.mpr ⟨a, ha, rfl⟩)
  unfold nextAccountId
  omega

/-- The empty account table is acyclic. -/
theorem acyclic_nil : Acyclic ([] : List AccountRow) := by
  intro x h
  cases h with
  | single hstep => rcases hstep with ⟨a, ha, _⟩; exact absurd ha (List.not_mem_nil a)
  | tail _ hstep => rcases hstep with ⟨a, ha, _⟩; exact absurd ha (List.not_mem_nil a)

/-- Claim C9: on a closed, acyclic account table, creating an account
via `addAccount` with a parent chosen among the stored accounts (or
none) keeps the parent relation closed and acyclic; moreover the
designated parent can never be the account being created — its id is
fresh — so no account is ever made its own ancestor. -/
theorem addAccount_preserves_acyclic (db : List AccountRow) (name : String)
    (type : AccountType) (description : String) (parentId : Option Nat)
    (assetId : Nat)
    (hclosed : ClosedParents db)
    (hpid : ∀ q, parentId = some q → ∃ b ∈ db, b.id = q)
    (hacyc : Acyclic db) :
    ClosedParents (addAccount db name type description parentId assetId).2 ∧
    Acyclic (addAccount db name type description parentId assetId).2 ∧
    (∀ q, parentId = some q → q ≠ nextAccountId db) := by
  have hqfresh : ∀ q, parentId = some q → q ≠ nextAccountId db := by
    intro q hq hcontra
    rcases hpid q hq with ⟨b, hb, hbid⟩
    exact nextAccountId_fresh db b hb (hbid.trans hcontra)
  by_cases h : hasAccount db name type parentId = true
  · have h2 : (addAccount db name type description parentId assetId).2 = db := by
      unfold addAccount
      rw [if_pos h]
    rw [h2]
    exact ⟨hclosed, hacyc, hqfresh⟩
  · have h2 : (addAccount db name type description parentId assetId).2 =
        db ++ [{ id := nextAccountId db
                 type := type
                 name := name
                 description := description
                 parentId := parentId
                 currencyId := if type = .Security then none else some assetId
                 securityId := if type = .Security then some assetId else none }] := by
      unfold addAccount
      rw [if_neg h]
    rw [h2]
    generalize hacc : ({ id := nextAccountId db
                         type := type
                         name := name
                         description := description
                         parentId := parentId
                         currencyId := if type = .Security then none else some assetId
                         securityId := if type = .Security then some assetId else none }
                       : AccountRow) = acc
    have haccid : acc.id = nextAccountId db := by rw [← hacc]
    have haccpar : acc.parentId = parentId := by rw [← hacc]
    have hmem : ∀ a : AccountRow, a ∈ db ++ [acc] ↔ a ∈ db ∨ a = acc := by
      intro a
      simp
    have hclosed' : ClosedParents (db ++ [acc]) := by
      intro a ha q hq
      rcases (hmem a).mp ha with hold | rfl
      · rcases hclosed a hold q hq with ⟨b, hb, hbid⟩
        exact ⟨b, (hmem b).mpr (Or.inl hb), hbid⟩
      · rcases hpid q (haccpar ▸ hq) with ⟨b, hb, hbid⟩
        exact ⟨b, (hmem b).mpr (Or.inl hb), hbid⟩
    have hnostep : ∀ x, ¬ parentStep (db ++ [acc]) x (nextAccountId db) := by
      intro x hstep
      rcases hstep with ⟨a, ha, hax, hap⟩
      rcases (hmem a).mp ha with hold | rfl
      · rcases hclosed a hold _ hap with ⟨b, hb, hbid⟩
        exact nextAccountId_fresh db b hb hbid
      · rcases hpid _ (haccpar ▸ hap) with ⟨b, hb, hbid⟩
        exact nextAccountId_fresh db b hb hbid
    have hnoreach : ∀ x, ¬ Relation.TransGen (parentStep (db ++ [acc])) x
        (nextAccountId db) := by
      intro x hxy
      cases hxy with
      | single hstep => exact hnostep _ hstep
      | tail _ hstep => exact hnostep _ hstep
    have hstep_old : ∀ x y, parentStep (db ++ [acc]) x y →
        x ≠ nextAccountId db → parentStep db x y := by
      intro x y hstep hx
      rcases hstep with ⟨a, ha, hax, hap⟩
      rcases (hmem a).mp ha with hold | rfl
      · exact ⟨a, hold, hax, hap⟩
      · exact absurd (hax.symm.trans haccid) hx
    have hreach_old : ∀ x y, Relation.TransGen (parentStep (db ++ [acc])) x y →
        x ≠ nextAccountId db → Relation.TransGen (parentStep db) x y := by
      intro x y hxy
      induction hxy with
      | single hstep =>
        intro hx
        exact Relation.TransGen.single (hstep_old _ _ hstep hx)
      | tail hxb hstep ih =>
        intro hx
        rename_i b c
        have hb : b ≠ nextAccountId db := fun hbn => hnoreach x (hbn ▸ hxb)
        exact Relation.TransGen.tail (ih hx) (hstep_old _ _ hstep hb)
    have hacyc' : Acyclic (db ++ [acc]) := by
      intro x hx
      by_cases hxn : x = nextAccountId db
      · subst hxn
        exact hnoreach _ hx
      · exact hacyc x (hreach_old _ _ hx hxn)
    exact ⟨hclosed', hacyc', hqfresh⟩

/-- Witness for claim C9: inserting a top-level account into the empty
table keeps the parent relation acyclic. -/
theorem addAccount_preserves_acyclic_witness :
    Acyclic (addAccount [] "Checking" .Bank "" none 5).2 :=
  (addAccount_preserves_acyclic [] "Checking" .Bank "" none 5
    (by intro a ha; exact absurd ha (List.not_mem_nil a))
    (by intro q hq; exact Option.noConfusion hq)
    acyclic_nil).2.1

/-- Sanity check against the spec's Wallet/Salary scenario: one
subtransaction of 1000 from a Salary (Income) account into a Wallet
(Cash) account at quote price 1 gives Wallet a raw balance of +1000, a
displayed Salary balance of +1000 (raw -1000, sign-inverted), and
transaction type Income. -/
theorem spec_scenario_wallet_salary :
    queryAccountBalance [⟨1, 0, 2, 1, 1000, 1⟩] 1 = 1000 ∧
    displayedBalance
      { accounts := [⟨1, 10⟩, ⟨2, 10⟩], subs := [⟨1, 0, 2, 1, 1000, 1⟩] }
      ⟨2, .Income, usdA⟩ = 1000 ∧
    TransactionType.fromAccountTypes .Income .Cash = some .Income := by
  refine ⟨?_, ?_, by decide⟩
  · simp [queryAccountBalance, balanceRows]
  · have hbal : queryAccountBalance [⟨1, 0, 2, 1, 1000, 1⟩] 2 = -1000 := by
      simp [queryAccountBalance, balanceRows]
    simp [displayedBalance, hbal, AccountType.group, AccountGroup.fromAccountType]

end Theorems

end MyMoneyMan
